import Mathlib

/-
Verification development for the PapyrusPal syntax-highlighting core:
the rule engine in src/papyrus_pal/syntax_highlighting/syntax_highlighter.py
and its configuration surface in
src/papyrus_pal/widgets/source_code_editor/source_code_textbox.py.

The rule engine stores an ordered list of (QRegularExpression, format_name)
pairs and a format table, and highlightBlock scans a line with every rule in
registration order, painting each captured range with the rule format
(later writes overwrite earlier ones per character).

QRegularExpression is Qt wrapping PCRE2.  We embed the fragment of PCRE2
syntax and matching semantics that the patterns of this repository use:
literals, escaped punctuation, character classes with ranges and the
d/s/w escapes, alternation, grouping (capturing and non-capturing),
greedy and lazy star/plus/option, the dot, anchors, word boundaries,
lookahead and lookbehind.  Matching is backtracking with the PCRE
preference order (leftmost alternative first, greedy prefers longer),
and global matching follows the documented Qt/PCRE2 scheme: scan for the
next match start, deliver the preferred match, and after an empty match
retry at the same offset requiring a non-empty match before advancing.

Two behaviours of the real engine matter for the claims and are modelled
faithfully:
  1. constructing a QRegularExpression from an invalid pattern does not
     raise; the object is stored invalid and every match attempt on it
     simply fails (no matches), and
  2. PCRE2 rejects lookbehind assertions whose body has no finite maximum
     length (for every released version: pre-10.43 requires fixed length,
     10.43+ requires a bounded maximum), so a pattern such as
     (?<=scriptname\s+)... fails to compile and its rule never matches.
-/

namespace PapyrusPal

set_option maxRecDepth 100000

/-- Item of a character class: a single character, an inclusive range, or
one of the class escapes d (ASCII digit), s (ASCII whitespace),
w (ASCII word character). -/
inductive ClsItem where
  | single (c : Char)
  | range (lo hi : Char)
  | digit
  | space
  | word
  deriving DecidableEq, Repr

/-- Abstract syntax of the PCRE2 fragment used by the patterns of this
repository.  star carries a laziness flag; plus and option are desugared
by the parser (r+ to cat r (star r), r? to alt r eps).  group is a
capturing group; since the highlighter only ever consumes the whole-match
capture (group 0), group is semantically transparent here. -/
inductive Regex where
  | eps
  | lit (c : Char)
  | dot
  | cls (neg : Bool) (items : List ClsItem)
  | alt (r1 r2 : Regex)
  | cat (r1 r2 : Regex)
  | star (lazy : Bool) (r : Regex)
  | group (r : Regex)
  | lookahead (neg : Bool) (r : Regex)
  | lookbehind (neg : Bool) (r : Regex)
  | bol
  | eol
  | wordB (neg : Bool)
  deriving DecidableEq, Repr

/-- Maximum number of characters a regex can consume, none if unbounded.
PCRE2 uses this to reject lookbehind assertions of unbounded length. -/
def Regex.maxLen : Regex → Option Nat
  | .eps => some 0
  | .lit _ => some 1
  | .dot => some 1
  | .cls _ _ => some 1
  | .alt a b =>
    match a.maxLen, b.maxLen with
    | some m, some n => some (max m n)
    | _, _ => none
  | .cat a b =>
    match a.maxLen, b.maxLen with
    | some m, some n => some (m + n)
    | _, _ => none
  | .star _ a =>
    match a.maxLen with
    | some 0 => some 0
    | _ => none
  | .group a => a.maxLen
  | .lookahead _ _ => some 0
  | .lookbehind _ _ => some 0
  | .bol => some 0
  | .eol => some 0
  | .wordB _ => some 0

/-- PCRE2 compile-time restriction: every lookbehind body must have a
finite maximum length (unbounded quantifiers inside lookbehind are a
compile error in every PCRE2 release). -/
def Regex.lookbehindOk : Regex → Bool
  | .eps | .lit _ | .dot | .cls _ _ | .bol | .eol | .wordB _ => true
  | .alt a b => a.lookbehindOk && b.lookbehindOk
  | .cat a b => a.lookbehindOk && b.lookbehindOk
  | .star _ a => a.lookbehindOk
  | .group a => a.lookbehindOk
  | .lookahead _ a => a.lookbehindOk
  | .lookbehind _ a => a.lookbehindOk && a.maxLen.isSome

/-- Size of a regex, used to budget matcher fuel. -/
def Regex.size : Regex → Nat
  | .eps | .lit _ | .dot | .cls _ _ | .bol | .eol | .wordB _ => 1
  | .alt a b => a.size + b.size + 1
  | .cat a b => a.size + b.size + 1
  | .star _ a => a.size + 1
  | .group a => a.size + 1
  | .lookahead _ a => a.size + 1
  | .lookbehind _ a => a.size + 1

/-- ASCII word character, the default PCRE2 meaning of the w escape. -/
def isWordCh (c : Char) : Bool := c.isAlphanum || c = '_'

/-- ASCII whitespace, the default PCRE2 meaning of the s escape. -/
def isSpaceCh (c : Char) : Bool :=
  c = ' ' || c = '\t' || c = '\n' || c = '\x0b' || c = '\x0c' || c = '\r'

/-- Membership of one character in one class item (case-exact). -/
def ClsItem.mem (c : Char) : ClsItem → Bool
  | .single d => c = d
  | .range lo hi => lo ≤ c && c ≤ hi
  | .digit => c.isDigit
  | .space => isSpaceCh c
  | .word => isWordCh c

/-- Case-insensitive class membership: under CaseInsensitiveOption a
character matches a class if it or its other-case form is in it. -/
def clsMem (ci : Bool) (neg : Bool) (items : List ClsItem) (c : Char) : Bool :=
  let hit := items.any fun it =>
    it.mem c || (ci && (it.mem c.toLower || it.mem c.toUpper))
  neg != hit

/-- Character comparison honouring CaseInsensitiveOption. -/
def chEq (ci : Bool) (a b : Char) : Bool :=
  if ci then a.toLower = b.toLower else a = b

/-- True when position i of s is a word boundary. -/
def atWordBoundary (s : List Char) (i : Nat) : Bool :=
  let before : Bool :=
    match i with
    | 0 => false
    | j + 1 => match s.get? j with | some c => isWordCh c | none => false
  let after : Bool :=
    match s.get? i with | some c => isWordCh c | none => false
  before != after

/-- All end positions of matches of r starting at position i of s, in
PCRE backtracking preference order (head is the match the engine
delivers).  ci is the CaseInsensitiveOption flag.  Fuel-based structural
recursion; star iterations are required to make progress, which is also
how PCRE2 cuts empty repetitions of a loop body. -/
def matchEnds (s : List Char) (ci : Bool) : Nat → Regex → Nat → List Nat
  | 0, _, _ => []
  | fuel + 1, r, i =>
    match r with
    | .eps => [i]
    | .lit c =>
      match s.get? i with
      | some a => if chEq ci a c then [i + 1] else []
      | none => []
    | .dot =>
      match s.get? i with
      | some a => if a = '\n' then [] else [i + 1]
      | none => []
    | .cls neg items =>
      match s.get? i with
      | some a => if clsMem ci neg items a then [i + 1] else []
      | none => []
    | .alt r1 r2 => matchEnds s ci fuel r1 i ++ matchEnds s ci fuel r2 i
    | .cat r1 r2 =>
      (matchEnds s ci fuel r1 i).flatMap fun j => matchEnds s ci fuel r2 j
    | .star lz r1 =>
      if lz then
        i :: (((matchEnds s ci fuel r1 i).filter fun j => i < j).flatMap
          fun j => matchEnds s ci fuel (.star lz r1) j)
      else
        (((matchEnds s ci fuel r1 i).filter fun j => i < j).flatMap
          fun j => matchEnds s ci fuel (.star lz r1) j) ++ [i]
    | .group r1 => matchEnds s ci fuel r1 i
    | .lookahead neg r1 =>
      if (matchEnds s ci fuel r1 i).isEmpty = neg then [i] else []
    | .lookbehind neg r1 =>
      if ((List.range (i + 1)).any fun j =>
          (matchEnds s ci fuel r1 j).contains i) = !neg then [i] else []
    | .bol => if i = 0 then [i] else []
    | .eol =>
      if i = s.length || (i + 1 = s.length && s.get? i = some '\n') then [i]
      else []
    | .wordB neg => if atWordBoundary s i = !neg then [i] else []

/-- Fuel that is ample for matching r against a suffix of s: each star
iteration consumes at least one character and a bounded amount of fuel. -/
def matcherFuel (r : Regex) (n : Nat) : Nat :=
  (r.size + 2) * (n + 2) + n + 8

/-- End of the preferred match of r at position i, as PCRE2 reports it. -/
def bestEnd (s : List Char) (ci : Bool) (r : Regex) (i : Nat) : Option Nat :=
  (matchEnds s ci (matcherFuel r s.length) r i).head?

/-- End of the preferred non-empty match of r at position i: the
PCRE2_NOTEMPTY_ATSTART retry that Qt issues after an empty match. -/
def bestEndNonEmpty (s : List Char) (ci : Bool) (r : Regex) (i : Nat) :
    Option Nat :=
  (matchEnds s ci (matcherFuel r s.length) r i).find? fun j => i < j

/-- Global-match loop of QRegularExpressionMatchIterator, following the
pcre2demo scheme Qt implements: deliver the match found at the scan
position; after an empty match retry anchored and non-empty at the same
offset, and advance by one position if that fails. -/
def globalMatchAux (s : List Char) (ci : Bool) (r : Regex) :
    Nat → Nat → List (Nat × Nat)
  | 0, _ => []
  | fuel + 1, pos =>
    if s.length < pos then []
    else
      match bestEnd s ci r pos with
      | none => globalMatchAux s ci r fuel (pos + 1)
      | some e =>
        if pos < e then (pos, e - pos) :: globalMatchAux s ci r fuel e
        else
          (pos, 0) ::
            match bestEndNonEmpty s ci r pos with
            | some e2 => (pos, e2 - pos) :: globalMatchAux s ci r fuel e2
            | none => globalMatchAux s ci r fuel (pos + 1)

/-- All (start, length) matches that globalMatch delivers on s. -/
def globalMatch (s : List Char) (ci : Bool) (r : Regex) : List (Nat × Nat) :=
  globalMatchAux s ci r (s.length + 2) 0

/-- Meaning of a backslash escape inside a character class.  Escaped
punctuation is the literal character; d, s, w are the class escapes;
n, t, r are control characters; everything else is outside the modelled
fragment and makes the pattern fail to compile. -/
def classEsc (c : Char) : Option ClsItem :=
  if c = 'd' then some .digit
  else if c = 's' then some .space
  else if c = 'w' then some .word
  else if c = 'n' then some (.single '\n')
  else if c = 't' then some (.single '\t')
  else if c = 'r' then some (.single '\r')
  else if c.isAlphanum then none
  else some (.single c)

/-- Parse the body of a character class up to the closing bracket,
returning the items and the input after the bracket.  Ranges with the
bounds reversed are a PCRE2 compile error. -/
def parseCls : Nat → List Char → Option (List ClsItem × List Char)
  | 0, _ => none
  | _ + 1, [] => none
  | _ + 1, ']' :: rest => some ([], rest)
  | fuel + 1, '\\' :: c :: rest =>
    match classEsc c with
    | some it =>
      match parseCls fuel rest with
      | some (items, rest2) => some (it :: items, rest2)
      | none => none
    | none => none
  | fuel + 1, a :: '-' :: b :: rest =>
    if b = ']' then
      match parseCls fuel (']' :: rest) with
      | some (items, rest2) => some (.single a :: .single '-' :: items, rest2)
      | none => none
    else if b = '\\' then none
    else if a ≤ b then
      match parseCls fuel rest with
      | some (items, rest2) => some (.range a b :: items, rest2)
      | none => none
    else none
  | fuel + 1, a :: rest =>
    match parseCls fuel rest with
    | some (items, rest2) => some (.single a :: items, rest2)
    | none => none

/-- Meaning of a backslash escape outside a character class, none for
escapes outside the modelled fragment (notably backreferences). -/
def escAtom (c : Char) : Option Regex :=
  if c = 'b' then some (.wordB false)
  else if c = 'B' then some (.wordB true)
  else if c = 'd' then some (.cls false [.digit])
  else if c = 'D' then some (.cls true [.digit])
  else if c = 's' then some (.cls false [.space])
  else if c = 'S' then some (.cls true [.space])
  else if c = 'w' then some (.cls false [.word])
  else if c = 'W' then some (.cls true [.word])
  else if c = 'n' then some (.lit '\n')
  else if c = 't' then some (.lit '\t')
  else if c = 'r' then some (.lit '\r')
  else if c.isAlphanum then none
  else some (.lit c)

/-- Recursive-descent parser for the PCRE2 fragment.  lvl 0 parses an
alternation, lvl 1 a sequence, lvl 2 a quantified piece, lvl 3 and above
an atom.  Stops at a closing parenthesis or bar so that group parsing
can resume; compileRegex below demands that the whole input is consumed.
A quantifier with nothing to repeat, an unterminated group or class, an
unknown group form and a possessive quantifier are compile errors, as in
PCRE2.  An unescaped brace that does not form a bounded quantifier is a
literal in PCRE2, and bounded quantifiers are outside the modelled
fragment, so braces parse as literals. -/
def parseRx : Nat → Nat → List Char → Option (Regex × List Char)
  | 0, _, _ => none
  | fuel + 1, 0, cs =>
    match parseRx fuel 1 cs with
    | some (r, '|' :: rest) =>
      match parseRx fuel 0 rest with
      | some (r2, rest2) => some (.alt r r2, rest2)
      | none => none
    | out => out
  | fuel + 1, 1, cs =>
    match cs with
    | [] => some (.eps, [])
    | ')' :: _ => some (.eps, cs)
    | '|' :: _ => some (.eps, cs)
    | _ =>
      match parseRx fuel 2 cs with
      | some (r, rest) =>
        match parseRx fuel 1 rest with
        | some (r2, rest2) => some (.cat r r2, rest2)
        | none => none
      | none => none
  | fuel + 1, 2, cs =>
    match parseRx fuel 3 cs with
    | some (r, rest) =>
      match rest with
      | '*' :: '?' :: rest2 => some (.star true r, rest2)
      | '*' :: '+' :: _ => none
      | '*' :: rest2 => some (.star false r, rest2)
      | '+' :: '?' :: rest2 => some (.cat r (.star true r), rest2)
      | '+' :: '+' :: _ => none
      | '+' :: rest2 => some (.cat r (.star false r), rest2)
      | '?' :: '?' :: rest2 => some (.alt .eps r, rest2)
      | '?' :: '+' :: _ => none
      | '?' :: rest2 => some (.alt r .eps, rest2)
      | _ => some (r, rest)
    | none => none
  | fuel + 1, _, cs =>
    match cs with
    | '(' :: '?' :: ':' :: rest =>
      match parseRx fuel 0 rest with
      | some (r, ')' :: rest2) => some (r, rest2)
      | _ => none
    | '(' :: '?' :: '=' :: rest =>
      match parseRx fuel 0 rest with
      | some (r, ')' :: rest2) => some (.lookahead false r, rest2)
      | _ => none
    | '(' :: '?' :: '!' :: rest =>
      match parseRx fuel 0 rest with
      | some (r, ')' :: rest2) => some (.lookahead true r, rest2)
      | _ => none
    | '(' :: '?' :: '<' :: '=' :: rest =>
      match parseRx fuel 0 rest with
      | some (r, ')' :: rest2) => some (.lookbehind false r, rest2)
      | _ => none
    | '(' :: '?' :: '<' :: '!' :: rest =>
      match parseRx fuel 0 rest with
      | some (r, ')' :: rest2) => some (.lookbehind true r, rest2)
      | _ => none
    | '(' :: '?' :: _ => none
    | '(' :: rest =>
      match parseRx fuel 0 rest with
      | some (r, ')' :: rest2) => some (.group r, rest2)
      | _ => none
    | '[' :: '^' :: rest =>
      match parseCls (rest.length + 2) rest with
      | some (items, rest2) => some (.cls true items, rest2)
      | none => none
    | '[' :: rest =>
      match parseCls (rest.length + 2) rest with
      | some (items, rest2) => some (.cls false items, rest2)
      | none => none
    | '\\' :: c :: rest =>
      match escAtom c with
      | some r => some (r, rest)
      | none => none
    | '\\' :: [] => none
    | '.' :: rest => some (.dot, rest)
    | '^' :: rest => some (.bol, rest)
    | '$' :: rest => some (.eol, rest)
    | '*' :: _ => none
    | '+' :: _ => none
    | '?' :: _ => none
    | ')' :: _ => none
    | '|' :: _ => none
    | c :: rest => some (.lit c, rest)
    | [] => none

/-- Compilation of a pattern string, as QRegularExpression does through
PCRE2: parse the whole pattern and enforce the bounded-lookbehind
restriction.  none models an invalid pattern (isValid false). -/
def compileRegex (pattern : String) : Option Regex :=
  match parseRx (6 * pattern.length + 30) 0 pattern.toList with
  | some (r, []) => if r.lookbehindOk then some r else none
  | _ => none

/-- Model of a QRegularExpression object as the highlighter stores it:
the compiled pattern (none when compilation failed; construction never
raises and the object is kept) and the CaseInsensitiveOption flag that
add_rule sets. -/
structure QRegularExpression where
  compiled : Option Regex
  caseInsensitive : Bool
  deriving DecidableEq, Repr

/-- Matches a QRegularExpression delivers on a line.  Matching an
invalid pattern fails silently: Qt reports no matches. -/
def QRegularExpression.globalMatchQ (re : QRegularExpression)
    (s : List Char) : List (Nat × Nat) :=
  match re.compiled with
  | some r => globalMatch s re.caseInsensitive r
  | none => []

/-- Model of QTextCharFormat as add_format builds it: optional
foreground and background colors, bold and italic flags.  The default
constructor QTextCharFormat() is emptyFormat. -/
structure QTextCharFormat where
  foreground : Option String
  background : Option String
  bold : Bool
  italic : Bool
  deriving DecidableEq, Repr

/-- The default-constructed, unstyled QTextCharFormat. -/
def emptyFormat : QTextCharFormat :=
  { foreground := none, background := none, bold := false, italic := false }

/-- Lookup in an insertion-ordered dictionary (model of a Python dict). -/
def dictGet {α : Type} : List (String × α) → String → Option α
  | [], _ => none
  | (k2, v) :: t, k => if k2 = k then some v else dictGet t k

/-- Insert-or-overwrite in an insertion-ordered dictionary: an existing
key keeps its position, a new key is appended. -/
def dictInsert {α : Type} : List (String × α) → String → α → List (String × α)
  | [], k, v => [(k, v)]
  | (k2, v2) :: t, k, v =>
    if k2 = k then (k, v) :: t else (k2, v2) :: dictInsert t k v

/-- State of a SyntaxHighlighter: the ordered rule list
_highlighting_rules and the format table _formats. -/
structure SyntaxHighlighterState where
  highlighting_rules : List (QRegularExpression × String)
  formats : List (String × QTextCharFormat)
  deriving DecidableEq, Repr

/-- Freshly constructed SyntaxHighlighter: both tables empty. -/
def SyntaxHighlighterState.init : SyntaxHighlighterState :=
  { highlighting_rules := [], formats := [] }

/-- SyntaxHighlighter.add_rule: compile the pattern (without any
validity check), switch on CaseInsensitiveOption, and append the pair to
the rule list.  There is no failure path. -/
def SyntaxHighlighterState.add_rule (st : SyntaxHighlighterState)
    (pattern format_name : String) : SyntaxHighlighterState :=
  { st with
    highlighting_rules := st.highlighting_rules ++
      [({ compiled := compileRegex pattern, caseInsensitive := true },
        format_name)] }

/-- SyntaxHighlighter.add_format: build a QTextCharFormat from the given
attributes and store it under the name.  The code guards each color with
a Python truthiness test, so an empty string sets no color. -/
def SyntaxHighlighterState.add_format (st : SyntaxHighlighterState)
    (format_name : String) (foreground background : Option String)
    (bold italic : Bool) : SyntaxHighlighterState :=
  let fg := match foreground with
    | some c => if c = "" then none else some c
    | none => none
  let bg := match background with
    | some c => if c = "" then none else some c
    | none => none
  { st with
    formats := dictInsert st.formats format_name
      { foreground := fg, background := bg, bold := bold, italic := italic } }

/-- One setFormat call issued by highlightBlock: start offset, length
and the applied format. -/
structure Span where
  start : Nat
  length : Nat
  format : QTextCharFormat
  deriving DecidableEq, Repr

/-- Format applied for a rule name: the stored format, or the default
QTextCharFormat() when the name is unregistered, exactly the
_formats.get(format_name, QTextCharFormat()) lookup of highlightBlock. -/
def resolveFormat (formats : List (String × QTextCharFormat))
    (name : String) : QTextCharFormat :=
  (dictGet formats name).getD emptyFormat

/-- setFormat calls a single rule produces on a line: one per global
match, painted with the resolved format of the rule name. -/
def ruleSpans (formats : List (String × QTextCharFormat))
    (rule : QRegularExpression × String) (s : List Char) : List Span :=
  (rule.1.globalMatchQ s).map fun m =>
    { start := m.1, length := m.2, format := resolveFormat formats rule.2 }

/-- SyntaxHighlighter.highlightBlock, observed as the sequence of
setFormat calls: every rule in registration order, every global match of
the rule in scan order. -/
def SyntaxHighlighterState.highlightBlock (st : SyntaxHighlighterState)
    (text : String) : List Span :=
  st.highlighting_rules.flatMap fun rule =>
    ruleSpans st.formats rule text.toList

/-- highlightBlock with the state threaded through, mirroring that the
method reads the rule and format tables but never mutates them. -/
def SyntaxHighlighterState.highlightBlockRun (st : SyntaxHighlighterState)
    (text : String) : SyntaxHighlighterState × List Span :=
  (st, st.highlightBlock text)

/-- Whether a setFormat call covers character position i. -/
def Span.covers (sp : Span) (i : Nat) : Bool :=
  decide (sp.start ≤ i) && decide (i < sp.start + sp.length)

/-- Effect of a sequence of setFormat calls on the per-character format
table of the block, which QSyntaxHighlighter resets to the default
format before invoking highlightBlock: later calls overwrite earlier
ones on the positions they cover. -/
def applySpans (spans : List Span) (f : Nat → QTextCharFormat) :
    Nat → QTextCharFormat :=
  spans.foldl (fun g sp => fun i => if sp.covers i then sp.format else g i) f

/-- Final format of character i of a line after highlightBlock. -/
def SyntaxHighlighterState.charFormat (st : SyntaxHighlighterState)
    (text : String) (i : Nat) : QTextCharFormat :=
  applySpans (st.highlightBlock text) (fun _ => emptyFormat) i

/-- A theme color table, as the THEME dictionaries in
syntax_highlighting/themes define it. -/
abbrev Theme : Type := List (String × String)

/-- The light theme, from syntax_highlighting/themes/light.py. -/
def lightTHEME : Theme :=
  [("background", "#FFFFFF"), ("default", "#000000"), ("operator", "#000000"),
   ("flow_control", "#C000C0"), ("type", "#6060FF"), ("keyword", "#C000C0"),
   ("keyword2", "#6060FF"), ("fold_open", "#C000C0"),
   ("fold_middle", "#C000C0"), ("fold_close", "#C000C0"),
   ("comment", "#008000"), ("number", "#606060"), ("string", "#AA2200"),
   ("property", "#005555"), ("class", "#0000FF"), ("function", "#555500")]

/-- The dark theme, from syntax_highlighting/themes/dark.py. -/
def darkTHEME : Theme :=
  [("background", "#1E1E1E"), ("default", "#D4D4D4"), ("operator", "#D4D4D4"),
   ("flow_control", "#C586C0"), ("type", "#569CD6"), ("keyword", "#C586C0"),
   ("keyword2", "#9CDCFE"), ("fold_open", "#C586C0"),
   ("fold_middle", "#C586C0"), ("fold_close", "#C586C0"),
   ("comment", "#6A9955"), ("number", "#B5CEA8"), ("string", "#CE9178"),
   ("property", "#4EC9B0"), ("class", "#4EC9B0"), ("function", "#DCDCAA")]

/-- The nord theme.  The papyrus_pal copy of nord.py is not in the
snapshot, so this is the identically structured nord theme module of
the repository (papyruspad/syntax_highlighting/themes/nord.py). -/
def nordTHEME : Theme :=
  [("background", "#2E3440"), ("default", "#D8DEE9"), ("operator", "#81A1C1"),
   ("flow_control", "#81A1C1"), ("type", "#8FBCBB"), ("keyword", "#81A1C1"),
   ("keyword2", "#88C0D0"), ("fold_open", "#81A1C1"),
   ("fold_middle", "#81A1C1"), ("fold_close", "#81A1C1"),
   ("comment", "#616E88"), ("number", "#B48EAD"), ("string", "#A3BE8C"),
   ("property", "#8FBCBB"), ("class", "#8FBCBB"), ("function", "#88C0D0")]

/-- The monokai theme, from syntax_highlighting/themes/monokai.py. -/
def monokaiTHEME : Theme :=
  [("background", "#272822"), ("default", "#F8F8F2"), ("operator", "#F92672"),
   ("flow_control", "#F92672"), ("type", "#66D9EF"), ("keyword", "#F92672"),
   ("keyword2", "#FD971F"), ("fold_open", "#F92672"),
   ("fold_middle", "#F92672"), ("fold_close", "#F92672"),
   ("comment", "#75715E"), ("number", "#AE81FF"), ("string", "#E6DB74"),
   ("property", "#A6E22E"), ("class", "#A6E22E"), ("function", "#A6E22E")]

/-- The THEMES registry of syntax_highlighter.py. -/
def THEMES : List (String × Theme) :=
  [("light", lightTHEME), ("dark", darkTHEME), ("nord", nordTHEME),
   ("monokai", monokaiTHEME)]

/-- State of a SourceCodeTextBox: the current theme name, the flag
_papyrus_highlighting_configured (absent-attribute modelled as false)
and the owned highlighter.  The GUI surface (palette, font, line-number
area) is out of scope and not part of the state. -/
structure SourceCodeTextBoxState where
  current_theme : String
  papyrus_highlighting_configured : Bool
  highlighter : SyntaxHighlighterState
  deriving DecidableEq, Repr

/-- Theme subscript THEMES[self._current_theme] as
configure_papyrus_highlighting performs it.  Every caller goes through
set_theme or the constructor, which normalise the name into the
registry, so the fallback branch is unreachable and its value
irrelevant. -/
def SourceCodeTextBoxState.theme (st : SourceCodeTextBoxState) : Theme :=
  (dictGet THEMES st.current_theme).getD []

/-- SourceCodeTextBox.configure_papyrus_highlighting: clear both tables,
set the configured flag, register the fifteen theme-colored formats and
the sixteen Papyrus rules in their fixed order. -/
def SourceCodeTextBoxState.configure_papyrus_highlighting
    (st : SourceCodeTextBoxState) : SourceCodeTextBoxState :=
  let theme := st.theme
  let h := SyntaxHighlighterState.init
  let h := h.add_format "default" (dictGet theme "default") none false false
  let h := h.add_format "operator" (dictGet theme "operator") none false false
  let h := h.add_format "flow_control" (dictGet theme "flow_control") none
    false false
  let h := h.add_format "type" (dictGet theme "type") none false false
  let h := h.add_format "keyword" (dictGet theme "keyword") none false false
  let h := h.add_format "keyword2" (dictGet theme "keyword2") none false false
  let h := h.add_format "fold_open" (dictGet theme "fold_open") none
    false false
  let h := h.add_format "fold_middle" (dictGet theme "fold_middle") none
    false false
  let h := h.add_format "fold_close" (dictGet theme "fold_close") none
    false false
  let h := h.add_format "comment" (dictGet theme "comment") none false true
  let h := h.add_format "number" (dictGet theme "number") none false false
  let h := h.add_format "string" (dictGet theme "string") none false false
  let h := h.add_format "property" (dictGet theme "property") none true false
  let h := h.add_format "class" (dictGet theme "class") none false false
  let h := h.add_format "function" (dictGet theme "function") none false false
  let h := h.add_rule
    "\\(|\\)|\\[|\\]|\\,|\\=|\\+|\\-|\\*|\\/|\\%|\\.|\\!|\\>|\\<|\\||\\&"
    "operator"
  let h := h.add_rule "\\b(if|else|elseif|endif|while|endwhile)\\b"
    "flow_control"
  let h := h.add_rule "\\b(bool|float|int|string|var)\\b" "type"
  let h := h.add_rule
    ("\\b(scriptname|extends|import|debugonly|betaonly|default|event|endevent|" ++
     "state|endstate|function|endfunction|global|native|struct|endstruct|" ++
     "property|endproperty|auto|autoreadonly|conditional|hidden|const|" ++
     "mandatory|group|endgroup|collapsed|collapsedonref|collapsedonbase|" ++
     "new|return|length)\\b")
    "keyword"
  let h := h.add_rule "\\b(none|parent|self|true|false)\\b" "keyword2"
  let h := h.add_rule
    "\\b(if|while|function|struct|property|group|event|state)\\b" "fold_open"
  let h := h.add_rule "\\b(else|elseif)\\b" "fold_middle"
  let h := h.add_rule
    ("\\b(endif|endwhile|endfunction|native|endstruct|endproperty|" ++
     "auto|autoreadonly|endgroup|endevent|endstate)\\b")
    "fold_close"
  let h := h.add_rule ";.*$" "comment"
  let h := h.add_rule ";/.*?/;" "comment"
  let h := h.add_rule "\\\x7b.*?\\\x7d" "comment"
  let h := h.add_rule "\\b(?:0x[0-9a-fA-F]+|\\d+\\.\\d*|\\d+)\\b" "number"
  let h := h.add_rule "\"[^\"\\\\]*(\\\\.[^\"\\\\]*)*\"" "string"
  let h := h.add_rule "\\b[A-Za-z0-9_]+(?=\\s*\\()" "function"
  let h := h.add_rule "(?<=scriptname\\s+)[A-Za-z0-9_]+" "class"
  let h := h.add_rule "(?<=property\\s+)[A-Za-z0-9_]+" "property"
  { st with papyrus_highlighting_configured := true, highlighter := h }

/-- Format attributes a caller hands to configure_custom_highlighting
for one name; properties.get reads each field with the shown default. -/
structure FormatProps where
  foreground : Option String
  background : Option String
  bold : Bool
  italic : Bool
  deriving DecidableEq, Repr

/-- SourceCodeTextBox.configure_custom_highlighting: clear both tables,
then add the supplied formats and rules, if any. -/
def SourceCodeTextBoxState.configure_custom_highlighting
    (st : SourceCodeTextBoxState)
    (rules : Option (List (String × String)))
    (formats : Option (List (String × FormatProps))) :
    SourceCodeTextBoxState :=
  let h := SyntaxHighlighterState.init
  let h := match formats with
    | some fs =>
      fs.foldl (fun h nf =>
        h.add_format nf.1 nf.2.foreground nf.2.background nf.2.bold
          nf.2.italic) h
    | none => h
  let h := match rules with
    | some rs => rs.foldl (fun h pf => h.add_rule pf.1 pf.2) h
    | none => h
  { st with highlighter := h }

/-- SourceCodeTextBox.set_theme: an unknown theme name falls back to
"light", the new name is stored, and the Papyrus rule set is rebuilt
when it had been configured.  The palette update is GUI-only. -/
def SourceCodeTextBoxState.set_theme (st : SourceCodeTextBoxState)
    (theme_name : String) : SourceCodeTextBoxState :=
  let name := if (dictGet THEMES theme_name).isNone then "light"
    else theme_name
  let st := { st with current_theme := name }
  if st.papyrus_highlighting_configured then st.configure_papyrus_highlighting
  else st

/-- SourceCodeTextBox.get_current_theme. -/
def SourceCodeTextBoxState.get_current_theme
    (st : SourceCodeTextBoxState) : String :=
  st.current_theme

/-- SourceCodeTextBox construction: store the requested theme name,
create an empty highlighter, then run set_theme. -/
def SourceCodeTextBoxState.init (theme : String) : SourceCodeTextBoxState :=
  SourceCodeTextBoxState.set_theme
    { current_theme := theme, papyrus_highlighting_configured := false,
      highlighter := SyntaxHighlighterState.init } theme

/-- A textbox carrying the Papyrus language profile under the light
theme, used for the concrete scenarios below. -/
def papyrusLight : SourceCodeTextBoxState :=
  (SourceCodeTextBoxState.init "light").configure_papyrus_highlighting

/-- The format the light theme gives the keyword role. -/
def kwLight : QTextCharFormat :=
  { foreground := some "#C000C0", background := none, bold := false,
    italic := false }

/-- The format the light theme gives the comment role. -/
def commentLight : QTextCharFormat :=
  { foreground := some "#008000", background := none, bold := false,
    italic := true }

/-- The format the light theme gives the number role. -/
def numberLight : QTextCharFormat :=
  { foreground := some "#606060", background := none, bold := false,
    italic := false }

/-- The format the light theme gives the function role. -/
def functionLight : QTextCharFormat :=
  { foreground := some "#555500", background := none, bold := false,
    italic := false }

/-- Highlighter holding two overlapping rules, the second registered
later, used to exercise registration-order precedence. -/
def twoRuleState : SyntaxHighlighterState :=
  ((((SyntaxHighlighterState.init.add_format "f1" (some "#111111") none false
    false).add_format "f2" (some "#222222") none false
    false).add_rule "a" "f1").add_rule "ab" "f2")

/-- Highlighter holding three rules that all match the same character,
used to exhibit that only the last-registered covering rule wins. -/
def threeRuleState : SyntaxHighlighterState :=
  ((((((SyntaxHighlighterState.init.add_format "f1" (some "#111111") none
    false false).add_format "f2" (some "#222222") none false
    false).add_format "f3" (some "#333333") none false
    false).add_rule "a" "f1").add_rule "a" "f2").add_rule "a" "f3")

/-- Highlighter holding one rule whose pattern can match the empty
string, used to exhibit zero-length setFormat calls. -/
def starRuleState : SyntaxHighlighterState :=
  (SyntaxHighlighterState.init.add_format "f" (some "#123456") none false
    false).add_rule "a*" "f"

/-- Highlighter holding one rule whose format name has no registered
format. -/
def unknownFormatState : SyntaxHighlighterState :=
  SyntaxHighlighterState.init.add_rule "a" "missing"

/-- Highlighter obtained by registering the invalid pattern. -/
def parenRuleState : SyntaxHighlighterState :=
  SyntaxHighlighterState.init.add_rule "(" "f"

/-- Every end position the matcher reports lies between the start
position and the end of the line. -/
theorem matchEnds_bounds (s : List Char) (ci : Bool) :
    ∀ (fuel : Nat) (r : Regex) (i j : Nat), i ≤ s.length →
      j ∈ matchEnds s ci fuel r i → i ≤ j ∧ j ≤ s.length := by
  intro fuel
  induction fuel with
  | zero =>
    intro r i j _ hj
    simp [matchEnds] at hj
  | succ fuel ih =>
    intro r i j hi hj
    cases r with
    | eps =>
      simp only [matchEnds, List.mem_singleton] at hj
      omega
    | lit c =>
      simp only [matchEnds] at hj
      cases hg : s.get? i with
      | none => rw [hg] at hj; simp at hj
      | some a =>
        rw [hg] at hj
        have hlt : i < s.length := by
          rcases List.get?_eq_some.mp hg with ⟨h, _⟩
          exact h
        by_cases hc : chEq ci a c
        · simp only [hc, if_true, List.mem_singleton] at hj
          omega
        · simp [hc] at hj
    | dot =>
      simp only [matchEnds] at hj
      cases hg : s.get? i with
      | none => rw [hg] at hj; simp at hj
      | some a =>
        rw [hg] at hj
        have hlt : i < s.length := by
          rcases List.get?_eq_some.mp hg with ⟨h, _⟩
          exact h
        by_cases hc : a = '\n'
        · simp [hc] at hj
        · simp only [hc, if_false, List.mem_singleton, if_neg] at hj
          omega
    | cls neg items =>
      simp only [matchEnds] at hj
      cases hg : s.get? i with
      | none => rw [hg] at hj; simp at hj
      | some a =>
        rw [hg] at hj
        have hlt : i < s.length := by
          rcases List.get?_eq_some.mp hg with ⟨h, _⟩
          exact h
        by_cases hc : clsMem ci neg items a
        · simp only [hc, if_true, List.mem_singleton] at hj
          omega
        · simp [hc] at hj
    | alt r1 r2 =>
      simp only [matchEnds, List.mem_append] at hj
      rcases hj with hj | hj
      · exact ih r1 i j hi hj
      · exact ih r2 i j hi hj
    | cat r1 r2 =>
      simp only [matchEnds, List.mem_flatMap] at hj
      rcases hj with ⟨k, hk, hj⟩
      have h1 := ih r1 i k hi hk
      have h2 := ih r2 k j h1.2 hj
      omega
    | star lz r1 =>
      simp only [matchEnds] at hj
      cases lz with
      | true =>
        simp only [if_true, List.mem_cons, List.mem_flatMap,
          List.mem_filter] at hj
        rcases hj with hj | ⟨k, ⟨hk, _⟩, hj⟩
        · omega
        · have h1 := ih r1 i k hi hk
          have h2 := ih (.star true r1) k j h1.2 hj
          omega
      | false =>
        simp only [Bool.false_eq_true, if_false, List.mem_append,
          List.mem_flatMap, List.mem_filter, List.mem_singleton] at hj
        rcases hj with ⟨k, ⟨hk, _⟩, hj⟩ | hj
        · have h1 := ih r1 i k hi hk
          have h2 := ih (.star false r1) k j h1.2 hj
          omega
        · omega
    | group r1 =>
      simp only [matchEnds] at hj
      exact ih r1 i j hi hj
    | lookahead neg r1 =>
      simp only [matchEnds] at hj
      split at hj
      · simp only [List.mem_singleton] at hj
        omega
      · simp at hj
    | lookbehind neg r1 =>
      simp only [matchEnds] at hj
      split at hj
      · simp only [List.mem_singleton] at hj
        omega
      · simp at hj
    | bol =>
      simp only [matchEnds] at hj
      split at hj
      · simp only [List.mem_singleton] at hj
        omega
      · simp at hj
    | eol =>
      simp only [matchEnds] at hj
      split at hj
      · simp only [List.mem_singleton] at hj
        omega
      · simp at hj
    | wordB neg =>
      simp only [matchEnds] at hj
      split at hj
      · simp only [List.mem_singleton] at hj
        omega
      · simp at hj

/-- The preferred match end reported at a position stays inside the
line. -/
theorem bestEnd_bounds (s : List Char) (ci : Bool) (r : Regex) (i e : Nat)
    (hi : i ≤ s.length) (h : bestEnd s ci r i = some e) :
    i ≤ e ∧ e ≤ s.length := by
  have hmem : e ∈ matchEnds s ci (matcherFuel r s.length) r i :=
    List.mem_of_mem_head? h
  exact matchEnds_bounds s ci _ r i e hi hmem

/-- The non-empty retry match end also stays inside the line and makes
progress. -/
theorem bestEndNonEmpty_bounds (s : List Char) (ci : Bool) (r : Regex)
    (i e : Nat) (hi : i ≤ s.length) (h : bestEndNonEmpty s ci r i = some e) :
    i < e ∧ e ≤ s.length := by
  have hmem : e ∈ matchEnds s ci (matcherFuel r s.length) r i :=
    List.mem_of_find?_eq_some h
  have hlt : i < e := by
    have := List.find?_some h
    simpa using this
  exact ⟨hlt, (matchEnds_bounds s ci _ r i e hi hmem).2⟩

/-- Every (start, length) pair the global-match loop delivers lies
inside the line. -/
theorem globalMatchAux_bounds (s : List Char) (ci : Bool) (r : Regex) :
    ∀ (fuel pos p l : Nat), (p, l) ∈ globalMatchAux s ci r fuel pos →
      p + l ≤ s.length := by
  intro fuel
  induction fuel with
  | zero =>
    intro pos p l h
    simp [globalMatchAux] at h
  | succ fuel ih =>
    intro pos p l h
    simp only [globalMatchAux] at h
    split at h
    · simp at h
    · rename_i hpos
      have hple : pos ≤ s.length := Nat.le_of_not_lt hpos
      cases hb : bestEnd s ci r pos with
      | none =>
        simp only [hb] at h
        exact ih _ _ _ h
      | some e =>
        simp only [hb] at h
        have hbe := bestEnd_bounds s ci r pos e hple hb
        split at h
        · rcases List.mem_cons.mp h with h1 | h1
          · rw [Prod.mk.injEq] at h1
            omega
          · exact ih _ _ _ h1
        · rcases List.mem_cons.mp h with h1 | h1
          · rw [Prod.mk.injEq] at h1
            omega
          · cases hb2 : bestEndNonEmpty s ci r pos with
            | none =>
              simp only [hb2] at h1
              exact ih _ _ _ h1
            | some e2 =>
              simp only [hb2] at h1
              have hbe2 := bestEndNonEmpty_bounds s ci r pos e2 hple hb2
              rcases List.mem_cons.mp h1 with h2 | h2
              · rw [Prod.mk.injEq] at h2
                omega
              · exact ih _ _ _ h2

/-- Bounds for the matches a QRegularExpression delivers on a line. -/
theorem globalMatchQ_bounds (re : QRegularExpression) (s : List Char)
    (p l : Nat) (h : (p, l) ∈ re.globalMatchQ s) : p + l ≤ s.length := by
  unfold QRegularExpression.globalMatchQ at h
  cases hc : re.compiled with
  | none => rw [hc] at h; simp at h
  | some r =>
    rw [hc] at h
    exact globalMatchAux_bounds s re.caseInsensitive r _ 0 p l h

/-- Every setFormat call issued by highlightBlock stays inside the
line: start plus length never exceeds the line length. -/
theorem highlightBlock_bounds (st : SyntaxHighlighterState) (text : String)
    (sp : Span) (h : sp ∈ st.highlightBlock text) :
    sp.start + sp.length ≤ text.length := by
  unfold SyntaxHighlighterState.highlightBlock at h
  rw [List.mem_flatMap] at h
  rcases h with ⟨rule, _, hsp⟩
  unfold ruleSpans at hsp
  rw [List.mem_map] at hsp
  rcases hsp with ⟨m, hm, hsp⟩
  have hb := globalMatchQ_bounds rule.1 text.toList m.1 m.2 hm
  have hlen : text.toList.length = text.length := String.length_data text
  rw [← hsp]
  simp only []
  omega

/-- Applying a sequence of setFormat calls leaves character i with the
format of the last call covering i, or the prior format when none
does. -/
theorem applySpans_eq_find (spans : List Span) (f : Nat → QTextCharFormat)
    (i : Nat) :
    applySpans spans f i =
      ((spans.reverse.find? fun sp => sp.covers i).map Span.format).getD
        (f i) := by
  induction spans generalizing f with
  | nil => simp [applySpans]
  | cons a t ih =>
    show applySpans t (fun x => if a.covers x then a.format else f x) i = _
    rw [ih]
    rw [List.reverse_cons, List.find?_append]
    cases hf : t.reverse.find? fun sp => sp.covers i with
    | some sp => simp [hf]
    | none =>
      simp only [hf, Option.none_or]
      by_cases hc : a.covers i
      · simp [List.find?, hc]
      · simp [List.find?, hc]

/-- The final format of a character is the format of the latest
registered rule among those whose matches cover it: a helper stating
this for an index kdx with a covering match and no covering match in
any later rule. -/
theorem lastCoveringRuleWins (st : SyntaxHighlighterState) (text : String)
    (i kdx : Nat) (hk : kdx < st.highlighting_rules.length)
    (hcv : ∃ m ∈ (st.highlighting_rules[kdx]).1.globalMatchQ text.toList,
      m.1 ≤ i ∧ i < m.1 + m.2)
    (hafter : ∀ (m : Nat) (hm : m < st.highlighting_rules.length), kdx < m →
      ∀ mt ∈ (st.highlighting_rules[m]).1.globalMatchQ text.toList,
        ¬ (mt.1 ≤ i ∧ i < mt.1 + mt.2)) :
    st.charFormat text i =
      resolveFormat st.formats (st.highlighting_rules[kdx]).2 := by
  unfold SyntaxHighlighterState.charFormat
  rw [applySpans_eq_find]
  have hsplit : st.highlightBlock text =
      (st.highlighting_rules.take (kdx + 1)).flatMap
        (fun rule => ruleSpans st.formats rule text.toList) ++
      (st.highlighting_rules.drop (kdx + 1)).flatMap
        (fun rule => ruleSpans st.formats rule text.toList) := by
    unfold SyntaxHighlighterState.highlightBlock
    rw [← List.flatMap_append, List.take_append_drop]
  rw [hsplit, List.reverse_append, List.find?_append]
  have hlate : ((st.highlighting_rules.drop (kdx + 1)).flatMap
      (fun rule => ruleSpans st.formats rule text.toList)).reverse.find?
      (fun sp => sp.covers i) = none := by
    rw [List.find?_eq_none]
    intro sp hsp hcov
    rw [List.mem_reverse, List.mem_flatMap] at hsp
    rcases hsp with ⟨rule, hrule, hspr⟩
    rw [List.mem_iff_getElem?] at hrule
    rcases hrule with ⟨n, hn⟩
    rw [List.getElem?_drop] at hn
    rcases List.getElem?_eq_some_iff.mp hn with ⟨hlt, hget⟩
    unfold ruleSpans at hspr
    rw [List.mem_map] at hspr
    rcases hspr with ⟨mt, hmt, hspeq⟩
    have hnc := hafter (kdx + 1 + n) hlt (by omega) mt (by rw [hget]; exact hmt)
    apply hnc
    rw [← hspeq] at hcov
    simp only [Span.covers, Bool.and_eq_true, decide_eq_true_eq] at hcov
    exact hcov
  rw [hlate, Option.none_or]
  have htake : st.highlighting_rules.take (kdx + 1) =
      st.highlighting_rules.take kdx ++ [st.highlighting_rules[kdx]] := by
    rw [List.take_succ, List.getElem?_eq_getElem hk]
    rfl
  rw [htake, List.flatMap_append, List.reverse_append, List.find?_append]
  have hsingle : ([st.highlighting_rules[kdx]]).flatMap
      (fun rule => ruleSpans st.formats rule text.toList) =
      ruleSpans st.formats (st.highlighting_rules[kdx]) text.toList := by
    simp
  rw [hsingle]
  have hsome : (((ruleSpans st.formats (st.highlighting_rules[kdx])
      text.toList).reverse.find? fun sp => sp.covers i)).isSome := by
    rw [List.find?_isSome]
    rcases hcv with ⟨mt, hmt, hc⟩
    refine ⟨Span.mk mt.1 mt.2
      (resolveFormat st.formats (st.highlighting_rules[kdx]).2), ?_, ?_⟩
    · rw [List.mem_reverse]
      unfold ruleSpans
      rw [List.mem_map]
      exact ⟨mt, hmt, rfl⟩
    · simp only [Span.covers, Bool.and_eq_true, decide_eq_true_eq]
      exact hc
  cases hf : (ruleSpans st.formats (st.highlighting_rules[kdx])
      text.toList).reverse.find? fun sp => sp.covers i with
  | none => rw [hf] at hsome; simp at hsome
  | some sp0 =>
    have hmem := List.mem_of_find?_eq_some hf
    rw [List.mem_reverse] at hmem
    unfold ruleSpans at hmem
    rw [List.mem_map] at hmem
    rcases hmem with ⟨mt, _, heq⟩
    have hfmt : sp0.format =
        resolveFormat st.formats (st.highlighting_rules[kdx]).2 := by
      rw [← heq]
    simp [hfmt]

/-- Rebuilding the Papyrus rule set does not change the stored theme
name. -/
theorem configure_papyrus_preserves_theme (st : SourceCodeTextBoxState) :
    (st.configure_papyrus_highlighting).current_theme = st.current_theme :=
  rfl

/-- C1 counterexample: the pattern "(" is not a valid regular
expression, yet add_rule reports no compilation error and stores the
rule, and a later highlight pass over it silently produces zero spans
instead of failing. -/
theorem claim1_counterexample :
    compileRegex "(" = none ∧
    parenRuleState.highlighting_rules =
      [({ compiled := none, caseInsensitive := true }, "f")] ∧
    parenRuleState.highlightBlock "((((" = [] := by
  decide

/-- C1 (amended): add_rule never fails; a pattern that does not compile
is stored as-is in the rule list with its compiled regex invalid, and at
scan time such a rule silently yields no matches on any line. -/
theorem claim1_theorem (st : SyntaxHighlighterState)
    (pattern format_name : String) (h : compileRegex pattern = none) :
    (st.add_rule pattern format_name).highlighting_rules =
      st.highlighting_rules ++
        [({ compiled := none, caseInsensitive := true }, format_name)] ∧
    ∀ s : List Char,
      QRegularExpression.globalMatchQ
        { compiled := compileRegex pattern, caseInsensitive := true } s =
        [] := by
  constructor
  · unfold SyntaxHighlighterState.add_rule
    rw [h]
  · intro s
    unfold QRegularExpression.globalMatchQ
    simp only [h]

/-- Witness for C1 at the concrete invalid pattern "(". -/
theorem claim1_witness :
    compileRegex "(" = none ∧
    (SyntaxHighlighterState.init.add_rule "(" "f").highlighting_rules =
      [({ compiled := none, caseInsensitive := true }, "f")] ∧
    QRegularExpression.globalMatchQ
      { compiled := compileRegex "(", caseInsensitive := true }
      "((((".toList = [] := by
  have h : compileRegex "(" = none := by decide
  have ht := claim1_theorem SyntaxHighlighterState.init "(" "f" h
  exact ⟨h, by simpa using ht.1, ht.2 "((((".toList⟩

/-- C2 (amended): when rules R1 (index jdx) and R2 (index kdx, with
jdx < kdx) both produce a match covering character i and no rule
registered after R2 produces a covering match there, the final format of
character i is R2's resolved format, not R1's: the last-registered
covering rule wins. -/
theorem claim2_theorem (st : SyntaxHighlighterState) (text : String)
    (i jdx kdx : Nat) (hjk : jdx < kdx)
    (hk : kdx < st.highlighting_rules.length)
    (hj1 : ∃ m ∈ (st.highlighting_rules[jdx]).1.globalMatchQ text.toList,
      m.1 ≤ i ∧ i < m.1 + m.2)
    (hk1 : ∃ m ∈ (st.highlighting_rules[kdx]).1.globalMatchQ text.toList,
      m.1 ≤ i ∧ i < m.1 + m.2)
    (hafter : ∀ (m : Nat) (hm : m < st.highlighting_rules.length), kdx < m →
      ∀ mt ∈ (st.highlighting_rules[m]).1.globalMatchQ text.toList,
        ¬ (mt.1 ≤ i ∧ i < mt.1 + mt.2)) :
    st.charFormat text i =
      resolveFormat st.formats (st.highlighting_rules[kdx]).2 :=
  lastCoveringRuleWins st text i kdx hk hk1 hafter

/-- Witness for C2: two overlapping rules on the line "ab"; character 0
ends with the format of the later rule. -/
theorem claim2_witness :
    twoRuleState.charFormat "ab" 0 =
      resolveFormat twoRuleState.formats
        (twoRuleState.highlighting_rules.get ⟨1, by decide⟩).2 :=
  claim2_theorem twoRuleState "ab" 0 0 1 (by decide) (by decide) (by decide)
    (by decide) (by decide)

/-- C2 counterexample: with three rules that all match "a" at position
0, taking R1 as the first and R2 as the second registered rule, both
produce covering matches, yet the final format is the third rule's, not
R2's, so the claim fails as universally stated over rule pairs. -/
theorem claim2_counterexample :
    (∃ m ∈ (threeRuleState.highlighting_rules.get
      ⟨0, by decide⟩).1.globalMatchQ "a".toList, m.1 ≤ 0 ∧ 0 < m.1 + m.2) ∧
    (∃ m ∈ (threeRuleState.highlighting_rules.get
      ⟨1, by decide⟩).1.globalMatchQ "a".toList, m.1 ≤ 0 ∧ 0 < m.1 + m.2) ∧
    threeRuleState.charFormat "a" 0 ≠
      resolveFormat threeRuleState.formats
        (threeRuleState.highlighting_rules.get ⟨1, by decide⟩).2 ∧
    threeRuleState.charFormat "a" 0 =
      resolveFormat threeRuleState.formats "f3" := by
  decide

/-- C3: highlighting is deterministic and re-entrant: highlightBlock
reads but never mutates the rule and format state, so two consecutive
invocations on the same line return identical span sequences. -/
theorem claim3_theorem (st : SyntaxHighlighterState) (text : String) :
    ((st.highlightBlockRun text).1.highlightBlockRun text).2 =
      (st.highlightBlockRun text).2 ∧
    (st.highlightBlockRun text).1 = st :=
  ⟨rfl, rfl⟩

/-- C4 counterexample: a rule whose pattern can match the empty string
emits zero-length spans, so the claimed invariant length > 0 fails. -/
theorem claim4_counterexample :
    starRuleState.highlightBlock "b" =
      [Span.mk 0 0 (resolveFormat starRuleState.formats "f"),
       Span.mk 1 0 (resolveFormat starRuleState.formats "f")] ∧
    ¬ (∀ sp ∈ starRuleState.highlightBlock "b", 0 < sp.length) := by
  decide

/-- C4 (amended): for every rule set and every line, every span emitted
by highlightBlock satisfies 0 ≤ start and start + length ≤ length of the
line; lengths are non-negative but can be zero when a pattern admits an
empty match (such spans have no visual effect). -/
theorem claim4_theorem (st : SyntaxHighlighterState) (text : String)
    (sp : Span) (h : sp ∈ st.highlightBlock text) :
    0 ≤ sp.start ∧ sp.start + sp.length ≤ text.length :=
  ⟨Nat.zero_le _, highlightBlock_bounds st text sp h⟩

/-- Witness for C4 on a concrete emitted span. -/
theorem claim4_witness :
    0 ≤ (Span.mk 0 0 (resolveFormat starRuleState.formats "f")).start ∧
    (Span.mk 0 0 (resolveFormat starRuleState.formats "f")).start +
      (Span.mk 0 0 (resolveFormat starRuleState.formats "f")).length ≤
      ("b" : String).length :=
  claim4_theorem starRuleState "b" _ (by decide)

/-- C5: configure_language followed by an empty configure_custom leaves
the rule list and the format table empty, and every subsequent highlight
call on any input line returns zero spans. -/
theorem claim5_theorem (st : SourceCodeTextBoxState) (text : String) :
    ((st.configure_papyrus_highlighting).configure_custom_highlighting
      none none).highlighter.highlighting_rules = [] ∧
    ((st.configure_papyrus_highlighting).configure_custom_highlighting
      none none).highlighter.formats = [] ∧
    ((st.configure_papyrus_highlighting).configure_custom_highlighting
      none none).highlighter.highlightBlock text = [] :=
  ⟨rfl, rfl, rfl⟩

/-- C6: resolving an unknown theme identifier deterministically falls
back to the "light" default without failing, and the fallback is
observable through get_current_theme. -/
theorem claim6_theorem (st : SourceCodeTextBoxState) (theme_name : String)
    (h : dictGet THEMES theme_name = none) :
    (st.set_theme theme_name).current_theme = "light" ∧
    (st.set_theme theme_name).get_current_theme = "light" := by
  have hmain : (st.set_theme theme_name).current_theme = "light" := by
    unfold SourceCodeTextBoxState.set_theme
    rw [h]
    simp only [Option.isNone_none, if_true]
    split
    · rw [configure_papyrus_preserves_theme]
    · rfl
  exact ⟨hmain, hmain⟩

/-- Witness for C6 at the unknown identifier "solarized". -/
theorem claim6_witness :
    dictGet THEMES "solarized" = none ∧
    ((SourceCodeTextBoxState.init "nord").set_theme
      "solarized").current_theme = "light" ∧
    ((SourceCodeTextBoxState.init "nord").set_theme
      "solarized").get_current_theme = "light" := by
  have h : dictGet THEMES "solarized" = none := by decide
  have ht := claim6_theorem (SourceCodeTextBoxState.init "nord") "solarized" h
  exact ⟨h, ht.1, ht.2⟩

/-- C7: highlight is total; a rule whose format name has no registered
format paints its matches with the default unstyled format, and a rule
without matches contributes zero spans.  highlightBlock is exactly the
concatenation of the per-rule span lists. -/
theorem claim7_theorem (st : SyntaxHighlighterState) (text : String)
    (rule : QRegularExpression × String)
    (hrule : rule ∈ st.highlighting_rules)
    (hmiss : dictGet st.formats rule.2 = none) :
    (st.highlightBlock text = st.highlighting_rules.flatMap fun r =>
      ruleSpans st.formats r text.toList) ∧
    (∀ sp ∈ ruleSpans st.formats rule text.toList,
      sp.format = emptyFormat) ∧
    (rule.1.globalMatchQ text.toList = [] →
      ruleSpans st.formats rule text.toList = []) := by
  refine ⟨rfl, ?_, ?_⟩
  · intro sp hsp
    unfold ruleSpans at hsp
    rw [List.mem_map] at hsp
    rcases hsp with ⟨m, _, hspeq⟩
    rw [← hspeq]
    simp [resolveFormat, hmiss]
  · intro hz
    unfold ruleSpans
    rw [hz]
    rfl

/-- Witness for C7 on a rule bound to an unregistered format name. -/
theorem claim7_witness :
    (unknownFormatState.highlightBlock "xyz" =
      unknownFormatState.highlighting_rules.flatMap fun r =>
        ruleSpans unknownFormatState.formats r "xyz".toList) ∧
    (∀ sp ∈ ruleSpans unknownFormatState.formats
      ({ compiled := compileRegex "a", caseInsensitive := true }, "missing")
      "xyz".toList, sp.format = emptyFormat) ∧
    (QRegularExpression.globalMatchQ
      { compiled := compileRegex "a", caseInsensitive := true }
      "xyz".toList = [] →
      ruleSpans unknownFormatState.formats
        ({ compiled := compileRegex "a", caseInsensitive := true },
          "missing") "xyz".toList = []) :=
  claim7_theorem unknownFormatState "xyz"
    ({ compiled := compileRegex "a", caseInsensitive := true }, "missing")
    (by decide) (by decide)

/-- C8: evaluation of the Papyrus profile at the claim's line.  The
pattern of the class rule is rejected by the regex engine (unbounded
lookbehind), so highlighting the line yields exactly two keyword spans,
over scriptname and extends, and no span at all covers MyScript
(position 11): the class half of the claim fails on the code. -/
theorem claim8_theorem :
    compileRegex "(?<=scriptname\\s+)[A-Za-z0-9_]+" = none ∧
    resolveFormat papyrusLight.highlighter.formats "keyword" = kwLight ∧
    papyrusLight.highlighter.highlightBlock
      "scriptname MyScript extends Quest" =
      [Span.mk 0 10 kwLight, Span.mk 20 7 kwLight] ∧
    ∀ sp ∈ papyrusLight.highlighter.highlightBlock
      "scriptname MyScript extends Quest", sp.covers 11 = false := by
  decide

/-- C9: every rule registered through add_rule carries the
case-insensitive option, and concretely the lines "ScriptName" and
"scriptname" receive identical highlighting under the language
profile. -/
theorem claim9_theorem :
    (∀ (st : SyntaxHighlighterState) (pattern format_name : String),
      (st.add_rule pattern format_name).highlighting_rules =
        st.highlighting_rules ++
          [({ compiled := compileRegex pattern, caseInsensitive := true },
            format_name)]) ∧
    papyrusLight.highlighter.highlightBlock "ScriptName" =
      papyrusLight.highlighter.highlightBlock "scriptname" := by
  refine ⟨fun st p f => rfl, ?_⟩
  decide

/-- C10: under the language profile the line-comment rule does not stop
scanning: in "; call Foo(42)" the digits and the called identifier are
finally styled with the number and function formats registered after
the comment rule, while surrounding commented text keeps the comment
format. -/
theorem claim10_theorem :
    papyrusLight.highlighter.charFormat "; call Foo(42)" 11 = numberLight ∧
    papyrusLight.highlighter.charFormat "; call Foo(42)" 12 = numberLight ∧
    papyrusLight.highlighter.charFormat "; call Foo(42)" 7 = functionLight ∧
    papyrusLight.highlighter.charFormat "; call Foo(42)" 2 = commentLight ∧
    numberLight ≠ commentLight ∧ functionLight ≠ commentLight := by
  decide

end PapyrusPal
